import Mathlib

/-!
Verification development for the backend-explorer-mcp tool server
(src/src/tools/DataExplorerTool.ts, SwaggerTool.ts, ERDTool.ts, MongoDBTool.ts,
src/src/index.ts).

The embedding models the JSON-mode behaviour of the four tools.  External
payloads (axios responses, MongoDB documents) are modelled as a JSON/BSON value
type `JVal`; JavaScript objects are association lists whose keys are unique in
all faithful inputs.  A tool response `{content: [{type, text}]}` is modelled by
`ToolResponse`; the `text` field is a `Payload`, which tags whether the carried
string is a JSON rendering (`Payload.jsonOf v`, i.e. `JSON.stringify` of `v`) or
plain text (`Payload.raw s`).  `JSON.parse` on a rendering recovers the value;
every `Payload.raw` string occurring in the modelled code (error and placeholder
messages) is not valid JSON, so parsing it fails, which `parsePayload` reflects
with an abstract `SyntaxError` text.  Network and store effects are modelled by
explicit environment records, and each operation additionally returns the trace
of remote calls it issued.
-/

/-- JSON values, extended with the BSON `ObjectId` leaf that MongoDB documents
may contain (`value instanceof ObjectId` in `MongoDBTool.extractFields`).
Numbers are modelled as integers; no claim depends on fractional values. -/
inductive JVal where
  | null
  | bool (b : Bool)
  | num (n : Int)
  | str (s : String)
  | oid (s : String)
  | arr (elems : List JVal)
  | obj (entries : List (String × JVal))

/-- First value bound to key `p`, as JavaScript property lookup on an object. -/
def lookupJ : List (String × JVal) → String → Option JVal
  | [], _ => none
  | (k, v) :: rest, p => if k = p then some v else lookupJ rest p

/-- JavaScript property access `j[k]`: `none` models `undefined` (missing key,
or access on a primitive). -/
def JVal.getProp : JVal → String → Option JVal
  | .obj es, k => lookupJ es k
  | _, _ => none

/-- JavaScript truthiness of a value: `null`, `false`, `0` and `""` are falsy,
every array and object is truthy. -/
def JVal.truthy : JVal → Bool
  | .null => false
  | .bool b => b
  | .num n => !(n == 0)
  | .str s => !(s == "")
  | .oid _ => true
  | .arr _ => true
  | .obj _ => true

/-- Truthiness of a possibly-`undefined` value (`undefined` is falsy). -/
def truthyOpt : Option JVal → Bool
  | none => false
  | some v => v.truthy

/-- `Object.keys(j).length`: own enumerable keys (characters for a string,
indices for an array, none for other primitives). -/
def jsKeysLength : JVal → Nat
  | .obj es => es.length
  | .arr xs => xs.length
  | .str s => s.length
  | _ => 0

/-- `Object.entries(j)`. -/
def jsEntries : JVal → List (String × JVal)
  | .obj es => es
  | .arr xs => xs.enum.map (fun p => (toString p.1, p.2))
  | .str s => s.data.enum.map (fun p => (toString p.1, JVal.str (String.singleton p.2)))
  | _ => []

/-- Replace the value at key `p` in place, as the spread `{...data, p: v}` does
when `data` already has key `p`. -/
def setPropJ : List (String × JVal) → String → JVal → List (String × JVal)
  | [], _, _ => []
  | (k, w) :: rest, p, v =>
    if k = p then (k, v) :: setPropJ rest p v else (k, w) :: setPropJ rest p v

/-- Spread-update of an object at an existing key (used only on objects that
contain the key). -/
def JVal.setProp : JVal → String → JVal → JVal
  | .obj es, p, v => .obj (setPropJ es p v)
  | j, _, _ => j

/-- ASCII lowercasing, as `toLowerCase` behaves on the ASCII strings this
server manipulates. -/
def lowerS (s : String) : String := ⟨s.data.map Char.toLower⟩

/-- ASCII uppercasing (`toUpperCase`). -/
def upperS (s : String) : String := ⟨s.data.map Char.toUpper⟩

/-- JavaScript `hay.includes(needle)`: contiguous substring test. -/
def containsSub (hay needle : String) : Bool :=
  hay.data.tails.any (fun t => needle.data.isPrefixOf t)

/-- The `text` of a content item: either the `JSON.stringify` rendering of a
value or a plain (non-JSON) string. -/
inductive Payload where
  | jsonOf (v : JVal)
  | raw (s : String)

/-- One entry of a tool response's `content` array. -/
structure ContentItem where
  type : String
  text : Payload

/-- The structured-content tool response shape `{content: [...]}`. -/
structure ToolResponse where
  content : List ContentItem

/-- `JSON.parse` on a payload.  Raw strings appearing in the modelled code are
never valid JSON, so they fail with a syntax error; the JavaScript exception
text is abstracted. -/
def parsePayload : Payload → Except String JVal
  | .jsonOf v => .ok v
  | .raw s => .error ("SyntaxError: " ++ s)

/-- A single-item text response. -/
def textResponse (p : Payload) : ToolResponse := ⟨[⟨"text", p⟩]⟩

/-- An inline `{message: s}` object. -/
def msgObj (s : String) : JVal := .obj [("message", .str s)]

/-- An `{error: true, message: s}` object (plain MongoDBTool error results). -/
def errObj (s : String) : JVal := .obj [("error", .bool true), ("message", .str s)]

/-- Collection-level MongoDB data operations (driver calls on collections).
Connection establishment is part of the connection lifecycle, not a data
operation, and is modelled by the environment instead. -/
inductive StoreOp where
  | find (c : String) (lim : Nat)
  | countDocs (c : String)
  | sample (c : String) (size : Nat)
  | countQuery (c : String) (q : JVal)
  | findQuery (c : String) (q : JVal) (lim : Nat)
  | listCols
  | collStats (c : String)

/-- The collection an operation addresses, if any. -/
def StoreOp.collection : StoreOp → Option String
  | .find c _ => some c
  | .countDocs c => some c
  | .sample c _ => some c
  | .countQuery c _ => some c
  | .findQuery c _ _ => some c
  | .listCols => none
  | .collStats c => some c

/-- A remote call made during an aggregation: an HTTP GET against the ERD or
Swagger endpoint, or a MongoDB data operation. -/
inductive CallOp where
  | erdGet
  | swaggerGet
  | mongoOp (op : StoreOp)

/-- The MongoDB data operations inside a call trace. -/
def storeOpsOf (t : List CallOp) : List StoreOp :=
  t.filterMap (fun c => match c with | .mongoOp o => some o | _ => none)

/-! ## Entity resolver (DataExplorerTool.execute, lines 68-95) -/

/-- A `\w` character of the JavaScript word-boundary regex. -/
def isWordChar (c : Char) : Bool := c.isAlpha || c.isDigit || c == '_'

/-- Maximal runs of word characters, as `query.match(/\b(\w+)\b/g)` produces
(`cur` holds the current run reversed). -/
def tokenizeAux : List Char → List Char → List String
  | cur, [] => if cur.isEmpty then [] else [String.mk cur.reverse]
  | cur, c :: cs =>
    if isWordChar c then tokenizeAux (c :: cur) cs
    else if cur.isEmpty then tokenizeAux [] cs
    else String.mk cur.reverse :: tokenizeAux [] cs

/-- All word tokens of a string, in order. -/
def wordTokens (s : String) : List String := tokenizeAux [] s.data

/-- The fixed stop-word list `commonWords` of DataExplorerTool. -/
def commonWords : List String :=
  ["the", "about", "what", "how", "is", "are", "in", "of", "to", "for", "on",
   "with", "properties", "structure", "schema", "fields", "data", "info",
   "information", "internal", "property", "field"]

/-- Entity-name extraction: lowercase the query, tokenize on word boundaries,
drop stop words, take the first remaining token. -/
def resolveEntityName (q : String) : Option String :=
  ((wordTokens (lowerS q)).filter (fun w => !commonWords.contains w)).head?

/-! ## SwaggerTool (src/src/tools/SwaggerTool.ts), JSON format -/

/-- Truthiness of the optional `path` argument (`path &&` in the source). -/
def pathGiven : Option String → Bool
  | none => false
  | some s => !(s == "")

/-- The path filter of SwaggerTool.execute: when `data.paths` and
`data.paths[p]` are truthy, restrict `paths` to exactly key `p` via
`{...data, paths: {[p]: data.paths[p]}}`; otherwise leave the document
unchanged. -/
def swaggerFilter (data : JVal) (p : String) : JVal :=
  match data.getProp "paths" with
  | some pv =>
    if pv.truthy then
      match pv.getProp p with
      | some v => if v.truthy then data.setProp "paths" (.obj [(p, v)]) else data
      | none => data
    else data
  | none => data

/-- SwaggerTool.execute in JSON format.  `cfg` models whether SWAGGER_API_URL
is set; `fetch` the outcome of `axios.get` on it.  A `null` document combined
with a truthy path makes the unguarded `data.paths` access throw; the thrown
TypeError is caught and returned as the error text. -/
def SwaggerTool.execute (cfg : Bool) (fetch : Except String JVal) (path? : Option String) :
    ToolResponse × List CallOp :=
  if !cfg then
    (textResponse (.raw "SWAGGER_API_URL is not set in the environment variables"), [])
  else
    match fetch with
    | .error m =>
      (textResponse (.raw ("Failed to retrieve Swagger information: " ++ m)), [.swaggerGet])
    | .ok data =>
      if pathGiven path? then
        match data with
        | .null =>
          (textResponse (.raw "Cannot read properties of null (reading \x27paths\x27)"),
           [.swaggerGet])
        | _ =>
          (textResponse (.jsonOf (swaggerFilter data (path?.getD ""))), [.swaggerGet])
      else (textResponse (.jsonOf data), [.swaggerGet])

/-! ## ERDTool (structured-content variant in src/src/tools), JSON format -/

/-- ERDTool.execute in JSON format: configuration check, then a single GET
whose failure is returned as plain error text and whose success is returned as
the JSON rendering of the fetched document. -/
def ERDTool.execute (cfg : Bool) (fetch : Except String JVal) : ToolResponse × List CallOp :=
  if !cfg then
    (textResponse (.raw "ERD_API_URL is not set in the environment variables"), [])
  else
    match fetch with
    | .error m =>
      (textResponse (.raw ("Failed to retrieve ERD information: " ++ m)), [.erdGet])
    | .ok data => (textResponse (.jsonOf data), [.erdGet])

/-! ## MongoDBTool (src/src/tools/MongoDBTool.ts), JSON format -/

/-- A MongoDB document: the entries of the top-level BSON object. -/
abbrev Doc := List (String × JVal)

/-- The store contents: collection name to list of documents, in natural
(find) order. -/
abbrev MongoStore := List (String × List Doc)

/-- `db.collection(c).find()` semantics: documents of collection `c`, the
empty list when no such collection exists. -/
def findCollection : MongoStore → String → List Doc
  | [], _ => []
  | (n, docs) :: rest, c => if n = c then docs else findCollection rest c

/-- Per-field accumulator entry `{type, count}` of `extractFields`. -/
structure FieldInfo where
  type : String
  count : Nat
deriving DecidableEq

/-- The `fields` accumulator object of `describeCollection`: insertion-ordered
association list. -/
abbrev FieldMap := List (String × FieldInfo)

/-- First entry bound to field path `p`. -/
def lookupF : FieldMap → String → Option FieldInfo
  | [], _ => none
  | (q, i) :: rest, p => if q = p then some i else lookupF rest p

/-- One `fields[fieldName] = fields[fieldName] || {type, count: 0};
fields[fieldName].count++` step: keep the stored type and increment the count
when the path is present, otherwise append the path with the given type and
count 1. -/
def bump (m : FieldMap) (p t : String) : FieldMap :=
  match lookupF m p with
  | some _ => m.map (fun e => (e.1, if e.1 = p then ⟨e.2.type, e.2.count + 1⟩ else e.2))
  | none => m ++ [(p, ⟨t, 1⟩)]

/-- The type label `extractFields` records for a value: `null` and `ObjectId`
get their own labels, arrays are labelled "array" (checked before `typeof`),
and the rest follow JavaScript `typeof`. -/
def typeLabel : JVal → String
  | .null => "null"
  | .oid _ => "ObjectId"
  | .arr _ => "array"
  | .bool _ => "boolean"
  | .num _ => "number"
  | .str _ => "string"
  | .obj _ => "object"

mutual

/-- The recursive field walk of `describeCollection`: dot-joined paths for
nested objects, a single bump for every other value; arrays are not descended
into.  `extractFields` folds `extractEntry` over an entry list. -/
def extractFields (m : FieldMap) (pfx : String) : List (String × JVal) → FieldMap
  | [] => m
  | (key, value) :: rest =>
    let fieldName := if pfx = "" then key else pfx ++ "." ++ key
    extractFields (extractEntry m fieldName value) pfx rest

/-- One entry of the field walk: record the type label at the dot-joined path,
and additionally walk the entries of a plain object value. -/
def extractEntry (m : FieldMap) (fieldName : String) : JVal → FieldMap
  | .obj fs => extractFields (bump m fieldName (typeLabel (.obj fs))) fieldName fs
  | .null => bump m fieldName (typeLabel .null)
  | .bool b => bump m fieldName (typeLabel (.bool b))
  | .num n => bump m fieldName (typeLabel (.num n))
  | .str s => bump m fieldName (typeLabel (.str s))
  | .oid s => bump m fieldName (typeLabel (.oid s))
  | .arr xs => bump m fieldName (typeLabel (.arr xs))

end

mutual

/-- The traversal-ordered list of (field path, type label) occurrences that
the field walk bumps, used to characterise the accumulator. -/
def occList (pfx : String) : List (String × JVal) → List (String × String)
  | [] => []
  | (key, value) :: rest =>
    let fieldName := if pfx = "" then key else pfx ++ "." ++ key
    occEntry fieldName value ++ occList pfx rest

/-- The occurrences contributed by one entry. -/
def occEntry (fieldName : String) : JVal → List (String × String)
  | .obj fs => (fieldName, typeLabel (.obj fs)) :: occList fieldName fs
  | .null => [(fieldName, typeLabel .null)]
  | .bool b => [(fieldName, typeLabel (.bool b))]
  | .num n => [(fieldName, typeLabel (.num n))]
  | .str s => [(fieldName, typeLabel (.str s))]
  | .oid s => [(fieldName, typeLabel (.oid s))]
  | .arr xs => [(fieldName, typeLabel (.arr xs))]

end

/-- One reported field of a collection descriptor. -/
structure MongoField where
  name : String
  type : String
  count : Nat
deriving DecidableEq

/-- Conversion of the accumulator to the response array, in insertion order. -/
def fieldArray (m : FieldMap) : List MongoField :=
  m.map (fun e => ⟨e.1, e.2.type, e.2.count⟩)

/-- A `describeCollection` result `{name, fields}`. -/
structure CollectionDescriptor where
  name : String
  fields : List MongoField
deriving DecidableEq

/-- `describeCollection`: sample up to 100 documents; an empty sample returns
the name with an empty field list before any count query; otherwise fold the
field walk over the sample. -/
def describeCollection (store : MongoStore) (name : String) :
    CollectionDescriptor × List StoreOp :=
  let sampleDocs := (findCollection store name).take 100
  if sampleDocs.length = 0 then (⟨name, []⟩, [.find name 100])
  else
    (⟨name, fieldArray (sampleDocs.foldl (fun acc doc => extractFields acc "" doc) [])⟩,
     [.find name 100, .countDocs name])

/-- JSON rendering of a reported field. -/
def fieldToJson (f : MongoField) : JVal :=
  .obj [("name", .str f.name), ("type", .str f.type), ("count", .num f.count)]

/-- JSON rendering of a collection descriptor. -/
def descriptorToJson (d : CollectionDescriptor) : JVal :=
  .obj [("name", .str d.name), ("fields", .arr (d.fields.map fieldToJson))]

/-- The MongoDB environment: connection-string presence, the outcome of the
(single, lazily attempted) connection, the store contents, and the driver
behaviours treated as external collaborators (filter matching for `find(query)`
and the `collStats` size). -/
structure MongoEnv where
  connString : Bool
  connect : Except String Unit
  store : MongoStore
  queryMatch : JVal → Doc → Bool
  collSize : String → Int

/-- `getClient`: a missing connection string throws a configuration error,
otherwise the connection attempt's outcome is returned (errors carry the
JavaScript `${err}` rendering). -/
def getClient (env : MongoEnv) : Except String Unit :=
  if !env.connString then
    .error "Error: MongoDB connection string not found in environment variables. Please set MONGODB_URI or MONGODB_CONNECTION_STRING"
  else env.connect

/-- `sampleData`: a `$sample` aggregation of the requested size.  The
pseudo-random choice is abstracted to the first `lim` documents; no claim
depends on which documents are drawn. -/
def getSampleData (store : MongoStore) (c : String) (lim : Nat) : JVal × List StoreOp :=
  (.obj [("data", .arr (((findCollection store c).take lim).map (fun d => .obj d)))],
   [.sample c lim])

/-- `runQuery`: total matching count, then up to `lim` matching documents,
echoing the parsed filter. -/
def runQuery (env : MongoEnv) (c : String) (q : JVal) (lim : Nat) : JVal × List StoreOp :=
  let matching := (findCollection env.store c).filter (env.queryMatch q)
  let data := matching.take lim
  (.obj [("data", .arr (data.map (fun d => .obj d))), ("count", .num data.length),
         ("total", .num matching.length), ("query", q)],
   [.countQuery c q, .findQuery c q lim])

/-- `listCollections`: the N+1 fan-out of one count and one stats command per
collection. -/
def listCollectionsM (env : MongoEnv) : JVal × List StoreOp :=
  (.obj [("collections", .arr (env.store.map (fun e =>
     .obj [("name", .str e.1), ("count", .num e.2.length), ("size", .num (env.collSize e.1))])))],
   .listCols :: env.store.flatMap (fun e => [.countDocs e.1, .collStats e.1]))

/-- The four actions of mongodb_explorer. -/
inductive MongoAction where
  | listCollections
  | describeCollection
  | sampleData
  | query

/-- A mongodb_explorer input (JSON format).  `limit` models
`input.options?.limit` with 0 standing for an absent or zero limit, both of
which the source's `|| 10` replaces by 10. -/
structure MongoInput where
  action : MongoAction
  collection : Option String
  query : Option Payload
  limit : Nat

/-- MongoDBTool.execute in JSON format (the plain-object variant present in
src).  The client is acquired before the action dispatch, so every call first
resolves the connection; argument validation and the JSON parse of the filter
happen after it.  Falsy (`none` or empty) collection and query arguments are
rejected with the corresponding message. -/
def MongoDBTool.execute (env : MongoEnv) (input : MongoInput) : JVal × List StoreOp :=
  match getClient env with
  | .error e => (errObj ("MongoDB operation failed: " ++ e), [])
  | .ok _ =>
    match input.action with
    | .listCollections => listCollectionsM env
    | .describeCollection =>
      match input.collection with
      | none => (errObj "Collection name is required.", [])
      | some c =>
        if c = "" then (errObj "Collection name is required.", [])
        else
          let r := describeCollection env.store c
          (descriptorToJson r.1, r.2)
    | .sampleData =>
      match input.collection with
      | none => (errObj "Collection name is required.", [])
      | some c =>
        if c = "" then (errObj "Collection name is required.", [])
        else getSampleData env.store c (if input.limit = 0 then 10 else input.limit)
    | .query =>
      match input.collection with
      | none => (errObj "Collection name is required.", [])
      | some c =>
        if c = "" then (errObj "Collection name is required.", [])
        else
          match input.query with
          | none => (errObj "Query is required.", [])
          | some (.raw "") => (errObj "Query is required.", [])
          | some qp =>
            match parsePayload qp with
            | .error e => (errObj ("Invalid query format: " ++ e), [])
            | .ok q => runQuery env c q (if input.limit = 0 then 10 else input.limit)

/-- Modelled from the spec: the structured-content MongoDBTool variant that the
DataExplorerTool in src consumes is not itself under src (only the plain-object
variant is).  Following the external-interface contract that every tool returns
a single text payload, it performs the same operations as the plain variant and
wraps the JSON rendering of the result in one text content item. -/
def MongoDBToolW.execute (env : MongoEnv) (input : MongoInput) : ToolResponse × List CallOp :=
  let r := MongoDBTool.execute env input
  (textResponse (.jsonOf r.1), r.2.map .mongoOp)

/-! ## DataExplorerTool (src/src/tools/DataExplorerTool.ts), JSON format -/

/-- The `.find` predicate of getERDInfo over `erdData.tables`: name equal to or
containing the entity name, case-insensitively.  A table whose `name` is not a
string makes `toLowerCase` throw, which aborts the whole `find`. -/
def findTable : List JVal → String → Except String (Option JVal)
  | [], _ => .ok none
  | t :: rest, e =>
    match t.getProp "name" with
    | some (.str s) =>
      if lowerS s == lowerS e || containsSub (lowerS s) (lowerS e) then .ok (some t)
      else findTable rest e
    | _ => .error "TypeError: Cannot read properties of undefined (reading \x27toLowerCase\x27)"

/-- getERDInfo (JSON format): run ERDTool, check the wrapped response shape,
parse the text, and narrow to the first matching table; a falsy `tables` field
returns the parsed document itself, and any exception inside the parse block is
converted to a `Failed to parse ERD data` message. -/
def getERDInfo (cfg : Bool) (fetch : Except String JVal) (entityName : String) :
    JVal × List CallOp :=
  let r := ERDTool.execute cfg fetch
  match r.1.content.head? with
  | none => (msgObj "Failed to retrieve ERD data: Invalid response format", r.2)
  | some item =>
    if !(item.type == "text") then
      (msgObj "Failed to retrieve ERD data: Response not in text format", r.2)
    else
      match parsePayload item.text with
      | .error e => (msgObj ("Failed to parse ERD data: " ++ e), r.2)
      | .ok erdData =>
        match erdData with
        | .null =>
          (msgObj "Failed to parse ERD data: TypeError: Cannot read properties of null (reading \x27tables\x27)", r.2)
        | _ =>
          if !truthyOpt (erdData.getProp "tables") then (erdData, r.2)
          else
            match erdData.getProp "tables" with
            | some (.arr ts) =>
              match findTable ts entityName with
              | .ok (some tbl) => (.obj [("table", tbl)], r.2)
              | .ok none =>
                (msgObj ("No ERD information found for \x27" ++ entityName ++ "\x27"), r.2)
              | .error e => (msgObj ("Failed to parse ERD data: " ++ e), r.2)
            | _ =>
              (msgObj "Failed to parse ERD data: TypeError: erdData.tables.find is not a function", r.2)

/-- The `directPathData.paths && Object.keys(directPathData.paths).length > 0`
check of getSwaggerInfo. -/
def directPathsNonempty (d : JVal) : Bool :=
  match d.getProp "paths" with
  | some pv => pv.truthy && !(jsKeysLength pv == 0)
  | none => false

/-- `Object.entries` of an optional value guarded by a truthiness check. -/
def entriesIfTruthy : Option JVal → List (String × JVal)
  | some v => if v.truthy then jsEntries v else []
  | none => []

/-- getSwaggerInfo (JSON format): call SwaggerTool once with the direct path
`/{entityName}` and once unfiltered; return the first parsed document whose
`paths` map is truthy and non-empty, otherwise fall back to the union of
substring-matched paths and component schemas of the unfiltered document, or a
not-found message when both are empty. -/
def getSwaggerInfo (cfg : Bool) (fetch : Except String JVal) (entityName : String) :
    JVal × List CallOp :=
  let direct := SwaggerTool.execute cfg fetch (some ("/" ++ entityName))
  match direct.1.content.head? with
  | none => (msgObj "Failed to retrieve Swagger data: Invalid response format", direct.2)
  | some dItem =>
    if !(dItem.type == "text") then
      (msgObj "Failed to retrieve Swagger data: Response not in text format", direct.2)
    else
      let allR := SwaggerTool.execute cfg fetch none
      let ops := direct.2 ++ allR.2
      match allR.1.content.head? with
      | none => (msgObj "Failed to retrieve Swagger data: Invalid response format", ops)
      | some aItem =>
        if !(aItem.type == "text") then
          (msgObj "Failed to retrieve Swagger data: Response not in text format", ops)
        else
          let directTaken : Option JVal :=
            match parsePayload dItem.text with
            | .ok d => if directPathsNonempty d then some d else none
            | .error _ => none
          match directTaken with
          | some d => (d, ops)
          | none =>
            match parsePayload aItem.text with
            | .error e => (msgObj ("Failed to parse Swagger data: " ++ e), ops)
            | .ok swaggerData =>
              match swaggerData with
              | .null =>
                (msgObj "Failed to parse Swagger data: TypeError: Cannot read properties of null (reading \x27paths\x27)", ops)
              | _ =>
                let relevantPaths := (entriesIfTruthy (swaggerData.getProp "paths")).filter
                  (fun en => containsSub (lowerS en.1) (lowerS entityName))
                let relevantSchemas :=
                  match swaggerData.getProp "components" with
                  | some cv =>
                    if cv.truthy then
                      (entriesIfTruthy (cv.getProp "schemas")).filter
                        (fun en => containsSub (lowerS en.1) (lowerS entityName))
                    else []
                  | none => []
                if relevantPaths.isEmpty && relevantSchemas.isEmpty then
                  (msgObj ("No Swagger information found for \x27" ++ entityName ++ "\x27"), ops)
                else
                  (.obj [("paths", .obj relevantPaths), ("schemas", .obj relevantSchemas)], ops)

/-- getMongoDBInfo (JSON format): describe the collection named exactly by the
entity name; when the parsed descriptor is falsy or has no truthy `name`,
report the not-found message; otherwise fetch 2 sample documents from the same
collection and return `{schema, samples}`. -/
def getMongoDBInfo (menv : MongoEnv) (entityName : String) (lim : Nat) :
    JVal × List CallOp :=
  let schemaR := MongoDBToolW.execute menv ⟨.describeCollection, some entityName, none, lim⟩
  match schemaR.1.content.head? with
  | none => (msgObj "Failed to retrieve MongoDB schema: Invalid response format", schemaR.2)
  | some sItem =>
    if !(sItem.type == "text") then
      (msgObj "Failed to retrieve MongoDB schema: Response not in text format", schemaR.2)
    else
      match parsePayload sItem.text with
      | .error e => (msgObj ("Failed to parse MongoDB schema: " ++ e), schemaR.2)
      | .ok schemaData =>
        if !(schemaData.truthy && truthyOpt (schemaData.getProp "name")) then
          (msgObj ("No MongoDB collection found with name \x27" ++ entityName ++ "\x27"),
           schemaR.2)
        else
          let sampleR := MongoDBToolW.execute menv ⟨.sampleData, some entityName, none, 2⟩
          let sampleData : JVal :=
            match sampleR.1.content.head? with
            | none => msgObj "Could not retrieve sample data"
            | some pItem =>
              if !(pItem.type == "text") then msgObj "Could not retrieve sample data"
              else
                match parsePayload pItem.text with
                | .ok v => v
                | .error e => msgObj ("Failed to parse MongoDB sample data: " ++ e)
          (.obj [("schema", schemaData), ("samples", sampleData)], schemaR.2 ++ sampleR.2)

/-- The whole aggregation environment: per-source configuration flags and fetch
outcomes, plus the MongoDB environment.  The mongodb availability flag of
DataExplorerTool and the connection-string check of getClient read the same
environment variables, so both are `mongo.connString`. -/
structure ExploreEnv where
  erdConfigured : Bool
  swaggerConfigured : Bool
  erdFetch : Except String JVal
  swaggerFetch : Except String JVal
  mongo : MongoEnv

/-- The per-source slot of the JSON result: the gathered result when the
source is available, the synthesized not-configured placeholder otherwise. -/
def sourceSlot (name : String) : Option (JVal × List CallOp) → JVal
  | some x => x.1
  | none =>
    msgObj (upperS name ++ " data source is not configured. Set appropriate environment variables.")

/-- The trace contributed by an optionally-queried source. -/
def optTrace : Option (JVal × List CallOp) → List CallOp
  | some x => x.2
  | none => []

/-- The unresolved-entity error text of DataExplorerTool.execute. -/
def unresolvedMsg : String :=
  "Could not determine which data entity you\x27re asking about. Please specify a collection/table/entity name in your query."

/-- DataExplorerTool.execute in JSON format: resolve the entity name (aborting
with the unresolved-entity message before touching any source), gather each
configured source sequentially, and compose
`{query, entityName, sources: {erd, swagger, mongodb}}`. -/
def DataExplorerTool.execute (env : ExploreEnv) (query : String) (lim : Nat) :
    ToolResponse × List CallOp :=
  match resolveEntityName query with
  | none => (textResponse (.raw unresolvedMsg), [])
  | some entityName =>
    let erd := if env.erdConfigured then
        some (getERDInfo env.erdConfigured env.erdFetch entityName) else none
    let swagger := if env.swaggerConfigured then
        some (getSwaggerInfo env.swaggerConfigured env.swaggerFetch entityName) else none
    let mongodb := if env.mongo.connString then
        some (getMongoDBInfo env.mongo entityName (if lim = 0 then 10 else lim)) else none
    let resultObj : JVal := .obj
      [("query", .str query), ("entityName", .str entityName),
       ("sources", .obj
         [("erd", sourceSlot "erd" erd),
          ("swagger", sourceSlot "swagger" swagger),
          ("mongodb", sourceSlot "mongodb" mongodb)])]
    (textResponse (.jsonOf resultObj), optTrace erd ++ optTrace swagger ++ optTrace mongodb)

/-! Accessors used to state properties of an aggregation result. -/

/-- The JSON value carried by a single-item text response, if any. -/
def respValue (r : ToolResponse) : Option JVal :=
  match r.content with
  | [item] => match item.text with | .jsonOf v => some v | .raw _ => none
  | _ => none

/-- The `sources` object of an aggregation result. -/
def sourcesOf (r : ToolResponse × List CallOp) : Option JVal :=
  (respValue r.1).bind (fun v => v.getProp "sources")

/-- The slot of one source inside an aggregation result. -/
def slotNamed (s : String) (r : ToolResponse × List CallOp) : Option JVal :=
  (sourcesOf r).bind (fun v => v.getProp s)

/-- The `entityName` field of an aggregation result. -/
def entityNameOf (r : ToolResponse × List CallOp) : Option JVal :=
  (respValue r.1).bind (fun v => v.getProp "entityName")

/-- The keys of the `sources` object, in composition order. -/
def sourceKeysOf (r : ToolResponse × List CallOp) : Option (List String) :=
  match sourcesOf r with
  | some (.obj es) => some (es.map Prod.fst)
  | _ => none

/-! ## Characterisation of the extractFields accumulator -/

/-- Folding a list of (path, label) occurrences through `bump`. -/
def foldBump (m : FieldMap) (os : List (String × String)) : FieldMap :=
  os.foldl (fun acc o => bump acc o.1 o.2) m

/-- Number of occurrences of path `p` in an occurrence list. -/
def occCount (os : List (String × String)) (p : String) : Nat :=
  os.countP (fun o => o.1 == p)

/-- The label of the first occurrence of path `p`, if any. -/
def firstTypeOf (os : List (String × String)) (p : String) : Option String :=
  (os.find? (fun o => o.1 == p)).map (fun o => o.2)

theorem lookupF_append (m : FieldMap) (e : String × FieldInfo) (q : String) :
    lookupF (m ++ [e]) q =
      match lookupF m q with
      | some i => some i
      | none => if e.1 = q then some e.2 else none := by
  induction m with
  | nil => simp [lookupF]
  | cons a m ih =>
    obtain ⟨k, i⟩ := a
    by_cases h : k = q
    · simp [lookupF, h]
    · simp [lookupF, h, ih]

theorem lookupF_map_update (m : FieldMap) (p : String) (f : FieldInfo → FieldInfo)
    (q : String) :
    lookupF (m.map (fun e => (e.1, if e.1 = p then f e.2 else e.2))) q =
      if q = p then (lookupF m q).map f else lookupF m q := by
  induction m with
  | nil => simp [lookupF]
  | cons a m ih =>
    obtain ⟨k, i⟩ := a
    simp only [List.map_cons]
    by_cases hkq : k = q
    · subst hkq
      by_cases hkp : k = p
      · subst hkp
        simp [lookupF]
      · have hqp : ¬ k = p := hkp
        simp [lookupF, hqp]
    · have hqk : ¬ q = k := fun h => hkq h.symm
      by_cases hkp : k = p
      · simp [lookupF, hkq, ih]
      · simp [lookupF, hkq, hkp, ih]

theorem lookupF_bump (m : FieldMap) (p t q : String) :
    lookupF (bump m p t) q =
      if q = p then
        some (match lookupF m p with
              | some i => ⟨i.type, i.count + 1⟩
              | none => ⟨t, 1⟩)
      else lookupF m q := by
  cases h : lookupF m p with
  | some i =>
    have hb : bump m p t =
        m.map (fun e => (e.1, if e.1 = p then ⟨e.2.type, e.2.count + 1⟩ else e.2)) := by
      unfold bump; rw [h]
    rw [hb, lookupF_map_update m p (fun i => (⟨i.type, i.count + 1⟩ : FieldInfo)) q]
    by_cases hq : q = p
    · subst hq
      rw [h]
      simp
    · simp [hq]
  | none =>
    have hb : bump m p t = m ++ [(p, ⟨t, 1⟩)] := by
      unfold bump; rw [h]
    rw [hb, lookupF_append]
    by_cases hq : q = p
    · subst hq
      rw [h]
    · cases h2 : lookupF m q with
      | some j => simp [hq]
      | none =>
        have hpq : ¬ p = q := fun hh => hq hh.symm
        simp [hpq, hq]

theorem lookupF_foldBump (os : List (String × String)) (m : FieldMap) (p : String) :
    lookupF (foldBump m os) p =
      match lookupF m p with
      | some i => some ⟨i.type, i.count + occCount os p⟩
      | none =>
        match firstTypeOf os p with
        | some t => some ⟨t, occCount os p⟩
        | none => none := by
  induction os generalizing m with
  | nil =>
    cases h : lookupF m p with
    | some i => cases i; simp [foldBump, occCount, firstTypeOf, h]
    | none => simp [foldBump, occCount, firstTypeOf, h]
  | cons o os ih =>
    obtain ⟨a, t⟩ := o
    have step : foldBump m ((a, t) :: os) = foldBump (bump m a t) os := rfl
    rw [step, ih, lookupF_bump]
    by_cases hp : p = a
    · subst hp
      cases h : lookupF m p with
      | some i =>
        simp only [if_pos rfl, h]
        simp [occCount, List.countP_cons, firstTypeOf]
        omega
      | none =>
        simp only [if_pos rfl, h]
        simp [occCount, List.countP_cons, firstTypeOf, List.find?]
        omega
    · have hp2 : ¬ (a == p) = true := by
        simp
        intro h
        exact hp h.symm
      rw [if_neg (fun h => hp h)]
      cases h : lookupF m p with
      | some i =>
        simp [occCount, List.countP_cons, firstTypeOf, List.find?, hp2, h]
      | none =>
        simp [occCount, List.countP_cons, firstTypeOf, List.find?, hp2, h]

theorem foldBump_append (m : FieldMap) (l1 l2 : List (String × String)) :
    foldBump m (l1 ++ l2) = foldBump (foldBump m l1) l2 := by
  simp [foldBump, List.foldl_append]

theorem extractFields_eq_foldBump :
    ∀ (m : FieldMap) (pfx : String) (es : List (String × JVal)),
      extractFields m pfx es = foldBump m (occList pfx es) := by
  refine extractFields.induct
    (fun m pfx es => extractFields m pfx es = foldBump m (occList pfx es))
    (fun m fn v => extractEntry m fn v = foldBump m (occEntry fn v))
    ?_ ?_ ?_ ?_ ?_ ?_ ?_ ?_ ?_
  · intro m fn fs ih
    simp only [extractEntry, occEntry]
    rw [ih]
    rfl
  · intro m fn
    simp only [extractEntry, occEntry]
    rfl
  · intro m fn b
    simp only [extractEntry, occEntry]
    rfl
  · intro m fn n
    simp only [extractEntry, occEntry]
    rfl
  · intro m fn s
    simp only [extractEntry, occEntry]
    rfl
  · intro m fn s
    simp only [extractEntry, occEntry]
    rfl
  · intro m fn xs
    simp only [extractEntry, occEntry]
    rfl
  · intro m pfx
    simp only [extractFields, occList]
    rfl
  · intro m pfx key value rest fn ihe ihr
    simp only [extractFields, occList]
    rw [ihr, ihe, ← foldBump_append]

/-- All occurrences contributed by a list of sampled documents, in sample
order. -/
def allOccs (docs : List Doc) : List (String × String) :=
  docs.flatMap (fun d => occList "" d)

theorem foldl_extract_eq_foldBump (docs : List Doc) (m : FieldMap) :
    docs.foldl (fun acc doc => extractFields acc "" doc) m = foldBump m (allOccs docs) := by
  induction docs generalizing m with
  | nil => rfl
  | cons d ds ih =>
    simp only [List.foldl_cons, allOccs, List.flatMap_cons]
    rw [ih, extractFields_eq_foldBump, ← foldBump_append]
    rfl

theorem lookupF_eq_none_iff (m : FieldMap) (p : String) :
    lookupF m p = none ↔ p ∉ m.map Prod.fst := by
  induction m with
  | nil => simp [lookupF]
  | cons a m ih =>
    obtain ⟨k, i⟩ := a
    by_cases h : k = p
    · subst h
      simp [lookupF]
    · have h2 : ¬ p = k := fun he => h he.symm
      simp only [lookupF, if_neg h, List.map_cons, List.mem_cons]
      rw [ih]
      tauto

theorem nodupKeys_bump (m : FieldMap) (p t : String)
    (h : (m.map Prod.fst).Nodup) : ((bump m p t).map Prod.fst).Nodup := by
  unfold bump
  cases hl : lookupF m p with
  | some i =>
    have : (m.map (fun e => (e.1, if e.1 = p then (⟨e.2.type, e.2.count + 1⟩ : FieldInfo) else e.2))).map Prod.fst = m.map Prod.fst := by
      rw [List.map_map]
      rfl
    rw [this]
    exact h
  | none =>
    have hp : p ∉ m.map Prod.fst := (lookupF_eq_none_iff m p).mp hl
    simp only [List.map_append]
    simp [List.nodup_append, h, hp]

theorem nodupKeys_foldBump (os : List (String × String)) (m : FieldMap)
    (h : (m.map Prod.fst).Nodup) : ((foldBump m os).map Prod.fst).Nodup := by
  induction os generalizing m with
  | nil => exact h
  | cons o os ih =>
    obtain ⟨a, t⟩ := o
    exact ih (bump m a t) (nodupKeys_bump m a t h)

theorem lookupF_of_mem (m : FieldMap) (p : String) (i : FieldInfo)
    (h : (m.map Prod.fst).Nodup) (hm : (p, i) ∈ m) : lookupF m p = some i := by
  induction m with
  | nil => cases hm
  | cons a m ih =>
    obtain ⟨k, j⟩ := a
    rcases List.mem_cons.mp hm with he | ht
    · obtain ⟨h1, h2⟩ := Prod.mk.injEq .. ▸ he
      cases he
      simp [lookupF]
    · have hk : k ≠ p := by
        intro hkp
        subst hkp
        have : k ∈ m.map Prod.fst := List.mem_map.mpr ⟨(k, i), ht, rfl⟩
        exact (List.nodup_cons.mp h).1 this
      simp only [lookupF, if_neg hk]
      exact ih (List.nodup_cons.mp h).2 ht

theorem occCount_le_one_of_nodup (l : List (String × String)) (p : String)
    (h : (l.map Prod.fst).Nodup) : occCount l p ≤ 1 := by
  have hc : occCount l p = (l.map Prod.fst).count p := by
    rw [List.count, List.countP_map]
    rfl
  rw [hc]
  exact List.nodup_iff_count_le_one.mp h p

theorem occCount_append (l1 l2 : List (String × String)) (p : String) :
    occCount (l1 ++ l2) p = occCount l1 p + occCount l2 p := by
  simp [occCount, List.countP_append]

theorem occCount_allOccs_le (docs : List Doc) (p : String)
    (h : ∀ d ∈ docs, ((occList "" d).map Prod.fst).Nodup) :
    occCount (allOccs docs) p ≤ docs.length := by
  induction docs with
  | nil => simp [allOccs, occCount]
  | cons d ds ih =>
    have hstep : allOccs (d :: ds) = occList "" d ++ allOccs ds := by
      simp [allOccs]
    rw [hstep, occCount_append]
    have h1 : occCount (occList "" d) p ≤ 1 :=
      occCount_le_one_of_nodup _ p (h d (List.mem_cons_self d ds))
    have h2 : occCount (allOccs ds) p ≤ ds.length :=
      ih (fun e he => h e (List.mem_cons_of_mem d he))
    simp only [List.length_cons]
    omega

theorem find?_fieldArray (m : FieldMap) (p : String) :
    (fieldArray m).find? (fun f => f.name == p) =
      (lookupF m p).map (fun i => ⟨p, i.type, i.count⟩) := by
  induction m with
  | nil => rfl
  | cons a m ih =>
    obtain ⟨k, i⟩ := a
    by_cases h : k = p
    · subst h
      simp [fieldArray, lookupF, List.find?]
    · simp only [fieldArray, List.map_cons, List.find?, lookupF]
      have hb : ((⟨k, i.type, i.count⟩ : MongoField).name == p) = false := by
        simp [h]
      rw [hb]
      simp only [if_neg h]
      exact ih

/-! ## Claim C7 -/

/-- C7: describeCollection on a collection with zero documents returns the
collection name with an empty field list, and at the tool level the result is
the JSON rendering of that descriptor, not an error result. -/
theorem c7_describe_empty (env : MongoEnv) (name : String) (lim : Nat)
    (hconn : env.connString = true) (hok : env.connect = .ok ())
    (hname : name ≠ "") (hempty : findCollection env.store name = []) :
    (describeCollection env.store name).1 = ⟨name, []⟩ ∧
    (MongoDBTool.execute env ⟨.describeCollection, some name, none, lim⟩).1 =
      descriptorToJson ⟨name, []⟩ ∧
    ((MongoDBTool.execute env ⟨.describeCollection, some name, none, lim⟩).1).getProp "error"
      = none := by
  have hd : (describeCollection env.store name).1 = ⟨name, []⟩ := by
    simp [describeCollection, hempty]
  refine ⟨hd, ?_, ?_⟩ <;>
    simp [MongoDBTool.execute, getClient, hconn, hok, hname, hd, descriptorToJson,
          JVal.getProp, lookupJ]

/-- C7 witness: a concrete empty collection. -/
theorem c7_witness :
    (describeCollection [("users", [])] "users").1 = ⟨"users", []⟩ ∧
    (MongoDBTool.execute ⟨true, .ok (), [("users", [])], fun _ _ => true, fun _ => 0⟩
        ⟨.describeCollection, some "users", none, 10⟩).1 = descriptorToJson ⟨"users", []⟩ ∧
    ((MongoDBTool.execute ⟨true, .ok (), [("users", [])], fun _ _ => true, fun _ => 0⟩
        ⟨.describeCollection, some "users", none, 10⟩).1).getProp "error" = none :=
  c7_describe_empty ⟨true, .ok (), [("users", [])], fun _ _ => true, fun _ => 0⟩ "users" 10
    rfl rfl (by simp) rfl

/-! ## Claim C8 -/

/-- C8 counterexample: in a collection whose single document contains both a
literal dotted key "a.b" and a nested object "a" with field "b", the reported
count for path "a.b" is 2 although only 1 document was sampled, so the claimed
bound (count at most the number of sampled documents) fails, as does its
justification that each distinct field path is counted at most once per
sampled document. -/
theorem c8_counterexample :
    ((describeCollection [("c", [[("a.b", JVal.num 1), ("a", JVal.obj [("b", JVal.num 2)])]])]
        "c").1.fields.find? (fun f => f.name == "a.b")).map MongoField.count = some 2 ∧
    ((findCollection [("c", [[("a.b", JVal.num 1), ("a", JVal.obj [("b", JVal.num 2)])]])]
        "c").take 100).length = 1 ∧
    ¬ (2 ≤ 1) := by
  refine ⟨?_, ?_, by omega⟩
  · simp [describeCollection, findCollection, extractFields, extractEntry, typeLabel, bump,
          lookupF, fieldArray, List.find?]
  · simp [findCollection]

/-- C8 amended: the count of a field path equals its number of occurrences
across the sampled documents, where a single document can contribute the same
path twice (dotted literal key colliding with a nested path).  Provided every
sampled document contributes each path at most once, every reported count is
at most the number of sampled documents, which is itself at most 100. -/
theorem c8_count_le_sample (store : MongoStore) (name : String)
    (h : ∀ d ∈ (findCollection store name).take 100, ((occList "" d).map Prod.fst).Nodup) :
    ∀ f ∈ (describeCollection store name).1.fields,
      f.count ≤ ((findCollection store name).take 100).length ∧
      ((findCollection store name).take 100).length ≤ 100 := by
  intro f hf
  have hlen : ((findCollection store name).take 100).length ≤ 100 := by
    rw [List.length_take]
    exact min_le_left _ _
  refine ⟨?_, hlen⟩
  by_cases hd : ((findCollection store name).take 100).length = 0
  · exfalso
    simp only [describeCollection, if_pos hd] at hf
    cases hf
  · simp only [describeCollection, if_neg hd] at hf
    rw [foldl_extract_eq_foldBump] at hf
    obtain ⟨e, he, hfe⟩ := List.mem_map.mp hf
    have hnd : ((foldBump [] (allOccs ((findCollection store name).take 100))).map
        Prod.fst).Nodup := nodupKeys_foldBump _ [] (by simp)
    have hl : lookupF (foldBump [] (allOccs ((findCollection store name).take 100))) e.1
        = some e.2 := lookupF_of_mem _ e.1 e.2 hnd he
    rw [lookupF_foldBump] at hl
    simp only [lookupF] at hl
    cases hft : firstTypeOf (allOccs ((findCollection store name).take 100)) e.1 with
    | none => rw [hft] at hl; cases hl
    | some t =>
      rw [hft] at hl
      have he2 : e.2 = ⟨t, occCount (allOccs ((findCollection store name).take 100)) e.1⟩ :=
        (Option.some.injEq .. ▸ hl).symm
      have hcount : f.count = occCount (allOccs ((findCollection store name).take 100)) e.1 := by
        rw [← hfe, he2]
      rw [hcount]
      exact occCount_allOccs_le _ e.1 h

/-- C8 amended witness: a concrete collision-free collection. -/
theorem c8_witness :
    (⟨"x", "number", 1⟩ : MongoField) ∈
      (describeCollection [("c", [[("x", JVal.num 1), ("y", JVal.obj [("z", JVal.str "s")])]])]
        "c").1.fields ∧
    (1 ≤ ((findCollection [("c", [[("x", JVal.num 1), ("y", JVal.obj [("z", JVal.str "s")])]])]
        "c").take 100).length ∧
     ((findCollection [("c", [[("x", JVal.num 1), ("y", JVal.obj [("z", JVal.str "s")])]])]
        "c").take 100).length ≤ 100) := by
  have hmem : (⟨"x", "number", 1⟩ : MongoField) ∈
      (describeCollection [("c", [[("x", JVal.num 1), ("y", JVal.obj [("z", JVal.str "s")])]])]
        "c").1.fields := by
    simp [describeCollection, findCollection, extractFields, extractEntry, typeLabel, bump,
          lookupF, fieldArray]
  have happ := c8_count_le_sample
    [("c", [[("x", JVal.num 1), ("y", JVal.obj [("z", JVal.str "s")])]])] "c"
    (by
      intro d hd
      simp [findCollection] at hd
      subst hd
      simp [occList, occEntry, typeLabel])
    ⟨"x", "number", 1⟩ hmem
  refine ⟨hmem, ?_, happ.2⟩
  simp [findCollection]

/-! ## Claim C10 -/

/-- C10: when the same field path occurs with different types across the
sampled documents, describeCollection reports the type label of the first
occurrence in traversal order (the first sampled document containing the
path); later occurrences never change the reported type. -/
theorem c10_first_type_wins (store : MongoStore) (name p t : String)
    (h : firstTypeOf (allOccs ((findCollection store name).take 100)) p = some t) :
    ((describeCollection store name).1.fields.find? (fun f => f.name == p)).map
      MongoField.type = some t := by
  by_cases hd : ((findCollection store name).take 100).length = 0
  · exfalso
    have : (findCollection store name).take 100 = [] := List.length_eq_zero.mp hd
    rw [this] at h
    simp [allOccs, firstTypeOf, List.find?] at h
  · simp only [describeCollection, if_neg hd]
    rw [foldl_extract_eq_foldBump, find?_fieldArray, lookupF_foldBump]
    simp only [lookupF]
    rw [h]
    rfl

/-- C10 witness: two sampled documents give path "x" first a number, then a
string; the reported type is "number". -/
theorem c10_witness :
    firstTypeOf (allOccs ((findCollection [("c", [[("x", JVal.num 1)], [("x", JVal.str "a")]])]
        "c").take 100)) "x" = some "number" ∧
    (((describeCollection [("c", [[("x", JVal.num 1)], [("x", JVal.str "a")]])] "c").1.fields.find?
        (fun f => f.name == "x")).map MongoField.type = some "number") := by
  have hft : firstTypeOf (allOccs ((findCollection
      [("c", [[("x", JVal.num 1)], [("x", JVal.str "a")]])] "c").take 100)) "x"
      = some "number" := by
    simp [firstTypeOf, allOccs, findCollection, occList, occEntry, typeLabel, List.find?]
  exact ⟨hft, c10_first_type_wins _ "c" "x" "number" hft⟩

/-! ## Claim C2 -/

/-- C2: for every query whose word-boundary tokenization after lowercasing
leaves at least one token outside the stop-word set, the aggregator resolves
the first such token (in original order) as the entity name and reports it in
the result; for every query where no token survives, it returns the
unresolved-entity error response and issues no source call at all. -/
theorem c2_entity_resolution (env : ExploreEnv) (q : String) (lim : Nat) :
    match ((wordTokens (lowerS q)).filter (fun w => !commonWords.contains w)).head? with
    | some e =>
        resolveEntityName q = some e ∧
        entityNameOf (DataExplorerTool.execute env q lim) = some (.str e)
    | none =>
        resolveEntityName q = none ∧
        DataExplorerTool.execute env q lim = (textResponse (.raw unresolvedMsg), []) := by
  cases h : ((wordTokens (lowerS q)).filter (fun w => !commonWords.contains w)).head? with
  | some e =>
    have hr : resolveEntityName q = some e := by
      simp only [resolveEntityName]
      exact h
    refine ⟨hr, ?_⟩
    simp [DataExplorerTool.execute, hr, entityNameOf, respValue, textResponse,
          JVal.getProp, lookupJ]
  | none =>
    have hr : resolveEntityName q = none := by
      simp only [resolveEntityName]
      exact h
    exact ⟨hr, by simp [DataExplorerTool.execute, hr]⟩

/-! ## Claim C4 -/

/-- C4: whenever the entity name resolves, the JSON result contains an entry
for each of the three sources in order erd, swagger, mongodb; an unconfigured
source gets the synthesized not-configured placeholder instead of an omitted
key, and with all three sources unconfigured the sources object consists of
exactly the three not-configured messages while no network or store call is
made. -/
theorem c4_sources_always_present (env : ExploreEnv) (q : String) (lim : Nat)
    (entity : String) (h : resolveEntityName q = some entity) :
    sourceKeysOf (DataExplorerTool.execute env q lim) = some ["erd", "swagger", "mongodb"] ∧
    (env.erdConfigured = false →
      slotNamed "erd" (DataExplorerTool.execute env q lim) = some (msgObj
        "ERD data source is not configured. Set appropriate environment variables.")) ∧
    (env.swaggerConfigured = false →
      slotNamed "swagger" (DataExplorerTool.execute env q lim) = some (msgObj
        "SWAGGER data source is not configured. Set appropriate environment variables.")) ∧
    (env.mongo.connString = false →
      slotNamed "mongodb" (DataExplorerTool.execute env q lim) = some (msgObj
        "MONGODB data source is not configured. Set appropriate environment variables.")) ∧
    (env.erdConfigured = false → env.swaggerConfigured = false →
      env.mongo.connString = false →
      sourcesOf (DataExplorerTool.execute env q lim) = some (.obj
        [("erd", msgObj
           "ERD data source is not configured. Set appropriate environment variables."),
         ("swagger", msgObj
           "SWAGGER data source is not configured. Set appropriate environment variables."),
         ("mongodb", msgObj
           "MONGODB data source is not configured. Set appropriate environment variables.")]) ∧
      (DataExplorerTool.execute env q lim).2 = []) := by
  refine ⟨?_, ?_, ?_, ?_, ?_⟩
  · simp [DataExplorerTool.execute, h, sourceKeysOf, sourcesOf, respValue, textResponse,
          JVal.getProp, lookupJ]
  · intro hc
    simp [DataExplorerTool.execute, h, hc, slotNamed, sourcesOf, respValue, textResponse,
          JVal.getProp, lookupJ, sourceSlot, upperS, msgObj]
  · intro hc
    simp [DataExplorerTool.execute, h, hc, slotNamed, sourcesOf, respValue, textResponse,
          JVal.getProp, lookupJ, sourceSlot, upperS, msgObj]
  · intro hc
    simp [DataExplorerTool.execute, h, hc, slotNamed, sourcesOf, respValue, textResponse,
          JVal.getProp, lookupJ, sourceSlot, upperS, msgObj]
  · intro h1 h2 h3
    constructor
    · simp [DataExplorerTool.execute, h, h1, h2, h3, sourcesOf, respValue, textResponse,
            JVal.getProp, lookupJ, sourceSlot, upperS, msgObj]
    · simp [DataExplorerTool.execute, h, h1, h2, h3, optTrace]

/-- C4 witness: all three sources unconfigured, query resolving to "users". -/
theorem c4_witness :
    sourceKeysOf (DataExplorerTool.execute
        ⟨false, false, .ok .null, .ok .null, ⟨false, .ok (), [], fun _ _ => true, fun _ => 0⟩⟩
        "users info" 10) = some ["erd", "swagger", "mongodb"] ∧
    (DataExplorerTool.execute
        ⟨false, false, .ok .null, .ok .null, ⟨false, .ok (), [], fun _ _ => true, fun _ => 0⟩⟩
        "users info" 10).2 = [] := by
  have hres : resolveEntityName "users info" = some "users" := by
    simp [resolveEntityName, wordTokens, lowerS, tokenizeAux, isWordChar, commonWords]
  have happ := c4_sources_always_present
    ⟨false, false, .ok .null, .ok .null, ⟨false, .ok (), [], fun _ _ => true, fun _ => 0⟩⟩
    "users info" 10 "users" hres
  exact ⟨happ.1, (happ.2.2.2.2 rfl rfl rfl).2⟩

/-! ## Claim C6 -/

theorem lookupJ_setPropJ (es : List (String × JVal)) (p : String) (v : JVal) (k : String) :
    lookupJ (setPropJ es p v) k =
      if k = p then (lookupJ es p).map (fun _ => v) else lookupJ es k := by
  induction es with
  | nil => simp [setPropJ, lookupJ]
  | cons a es ih =>
    obtain ⟨a1, a2⟩ := a
    by_cases hak : a1 = k
    · subst hak
      by_cases hap : a1 = p
      · subst hap
        simp [setPropJ, lookupJ]
      · have hkp : ¬ a1 = p := hap
        simp [setPropJ, lookupJ, hkp]
    · by_cases hap : a1 = p
      · subst hap
        have hpk : ¬ k = a1 := fun h => hak h.symm
        simp [setPropJ, lookupJ, hak, hpk, ih]
      · simp [setPropJ, lookupJ, hak, hap, ih]

/-- C6 counterexample: the document
`{info, paths: {"/a": null, "/b": {get: {}}}}` contains the filtered key "/a"
in its paths map, yet `get_swagger` with path filter "/a" returns the document
completely unchanged (both path keys still present) because the value stored at
"/a" is falsy, contradicting the claim that presence of the key suffices for
the paths map to be restricted to exactly that key. -/
theorem c6_counterexample :
    (SwaggerTool.execute true
        (.ok (.obj [("info", .str "i"),
                    ("paths", .obj [("/a", .null), ("/b", .obj [("get", .obj [])])])]))
        (some "/a")).1 =
      textResponse (.jsonOf (.obj [("info", .str "i"),
        ("paths", .obj [("/a", .null), ("/b", .obj [("get", .obj [])])])])) ∧
    lookupJ [("/a", JVal.null), ("/b", JVal.obj [("get", JVal.obj [])])] "/a" = some .null := by
  constructor <;>
    simp [SwaggerTool.execute, pathGiven, swaggerFilter, JVal.getProp, lookupJ, JVal.truthy]

/-- C6 amended: with a path filter `p` supplied, when the document's paths map
binds `p` to a truthy value the returned document is the input with its paths
map replaced by exactly that one binding, every other top-level field
unchanged; when the binding for `p` is absent or falsy (which subsumes prefix
and substring near-matches), the unfiltered document is returned completely
unchanged. -/
theorem c6_path_filter (es : List (String × JVal)) (pv v : JVal) (p : String)
    (hp : p ≠ "") (h1 : lookupJ es "paths" = some pv) (h2 : pv.truthy = true) :
    (pv.getProp p = some v → v.truthy = true →
      (SwaggerTool.execute true (.ok (.obj es)) (some p)).1 =
        textResponse (.jsonOf ((JVal.obj es).setProp "paths" (.obj [(p, v)]))) ∧
      ((JVal.obj es).setProp "paths" (.obj [(p, v)])).getProp "paths" = some (.obj [(p, v)]) ∧
      (∀ k, k ≠ "paths" →
        ((JVal.obj es).setProp "paths" (.obj [(p, v)])).getProp k = (JVal.obj es).getProp k)) ∧
    (truthyOpt (pv.getProp p) = false →
      (SwaggerTool.execute true (.ok (.obj es)) (some p)).1 =
        textResponse (.jsonOf (.obj es))) := by
  have hpb : (p == "") = false := by
    simp [hp]
  have hg : (JVal.obj es).getProp "paths" = some pv := h1
  constructor
  · intro hv htv
    refine ⟨?_, ?_, ?_⟩
    · simp [SwaggerTool.execute, pathGiven, hpb, swaggerFilter, hg, h2, hv, htv]
    · simp [JVal.setProp, JVal.getProp, lookupJ_setPropJ, h1]
    · intro k hk
      simp [JVal.setProp, JVal.getProp, lookupJ_setPropJ, hk]
  · intro hmiss
    cases hv : pv.getProp p with
    | none => simp [SwaggerTool.execute, pathGiven, hpb, swaggerFilter, hg, h2, hv]
    | some w =>
      rw [hv] at hmiss
      simp only [truthyOpt] at hmiss
      simp [SwaggerTool.execute, pathGiven, hpb, swaggerFilter, hg, h2, hv, hmiss]

/-- C6 witness: filtering `{paths: {"/orders": .., "/invoices": ..}, info}`
by "/orders" keeps only that path and leaves `info` unchanged. -/
theorem c6_witness :
    (SwaggerTool.execute true
        (.ok (.obj [("paths", .obj [("/orders", .obj [("get", .obj [])]),
                                    ("/invoices", .obj [("get", .obj [])])]),
                    ("info", .str "x")]))
        (some "/orders")).1 =
      textResponse (.jsonOf ((JVal.obj
        [("paths", .obj [("/orders", .obj [("get", .obj [])]),
                         ("/invoices", .obj [("get", .obj [])])]),
         ("info", .str "x")]).setProp "paths" (.obj [("/orders", .obj [("get", .obj [])])]))) ∧
    ((JVal.obj
        [("paths", .obj [("/orders", .obj [("get", .obj [])]),
                         ("/invoices", .obj [("get", .obj [])])]),
         ("info", .str "x")]).setProp "paths"
        (.obj [("/orders", .obj [("get", .obj [])])])).getProp "info" =
      some (.str "x") := by
  have happ := c6_path_filter
    [("paths", .obj [("/orders", .obj [("get", .obj [])]),
                     ("/invoices", .obj [("get", .obj [])])]),
     ("info", .str "x")]
    (.obj [("/orders", .obj [("get", .obj [])]), ("/invoices", .obj [("get", .obj [])])])
    (.obj [("get", .obj [])]) "/orders" (by simp) (by simp [lookupJ]) rfl
  obtain ⟨hmain, _, hframe⟩ := happ.1 (by simp [JVal.getProp, lookupJ]) rfl
  exact ⟨hmain, by rw [hframe "info" (by simp)]; simp [JVal.getProp, lookupJ]⟩

/-! ## Claim C1 -/

theorem slash_append_ne_empty (s : String) : ("/" ++ s) ≠ "" := by
  intro h
  have hl := congrArg String.length h
  rw [String.length_append] at hl
  have h1 : ("/" : String).length = 1 := rfl
  have h2 : ("" : String).length = 0 := rfl
  rw [h1, h2] at hl
  omega

/-- A Swagger document with no exact path for "orders", no path containing
"orders", and no component schemas. -/
def c1doc : JVal :=
  .obj [("info", .str "api"), ("paths", .obj [("/invoices", .obj [("get", .obj [])])])]

set_option maxRecDepth 8000 in
/-- C1 counterexample: for `c1doc` and entity "orders" there is no exact path
`/orders` and no substring match, so by the claim the Swagger narrowing should
return the not-found message; instead getSwaggerInfo returns the full document
unchanged (which carries no message field), because the no-op path filter hands
the complete document to the non-empty-paths check of the first pass. -/
theorem c1_counterexample :
    (getSwaggerInfo true (.ok c1doc) "orders").1 = c1doc ∧
    (c1doc.getProp "paths").bind (fun pv => pv.getProp "/orders") = none ∧
    containsSub (lowerS "/invoices") (lowerS "orders") = false ∧
    c1doc.getProp "message" = none := by
  refine ⟨rfl, rfl, by decide, rfl⟩

/-- C1 amended: the two-pass narrowing actually implemented is: (first pass)
if the document's paths map binds the exact key `/{entity}` to a truthy value,
the document restricted to exactly that path binding is returned; otherwise,
if the document's paths map is truthy and non-empty, the full unfiltered
document is returned; (second pass, reached only when the first pass sees an
empty or falsy paths map) the union of substring-matched paths and
substring-matched component schemas is returned, or a not-found message when
both matched sets are empty. -/
theorem c1_two_pass (es : List (String × JVal)) (entity : String) :
    (∀ pv v, lookupJ es "paths" = some pv → pv.truthy = true →
       pv.getProp ("/" ++ entity) = some v → v.truthy = true →
       (getSwaggerInfo true (.ok (.obj es)) entity).1 =
         (JVal.obj es).setProp "paths" (.obj [("/" ++ entity, v)])) ∧
    (∀ pv, lookupJ es "paths" = some pv → pv.truthy = true →
       truthyOpt (pv.getProp ("/" ++ entity)) = false → jsKeysLength pv ≠ 0 →
       (getSwaggerInfo true (.ok (.obj es)) entity).1 = .obj es) ∧
    (directPathsNonempty (swaggerFilter (.obj es) ("/" ++ entity)) = false →
       (getSwaggerInfo true (.ok (.obj es)) entity).1 =
         (let relevantPaths := (entriesIfTruthy (lookupJ es "paths")).filter
             (fun en => containsSub (lowerS en.1) (lowerS entity))
          let relevantSchemas :=
             match lookupJ es "components" with
             | some cv =>
               if cv.truthy then
                 (entriesIfTruthy (cv.getProp "schemas")).filter
                   (fun en => containsSub (lowerS en.1) (lowerS entity))
               else []
             | none => []
          if relevantPaths.isEmpty && relevantSchemas.isEmpty then
            msgObj ("No Swagger information found for \x27" ++ entity ++ "\x27")
          else .obj [("paths", .obj relevantPaths), ("schemas", .obj relevantSchemas)])) := by
  have hslash : (("/" ++ entity) == "") = false := by
    simp [slash_append_ne_empty entity]
  have hexec2 : SwaggerTool.execute true (.ok (.obj es)) none =
      (textResponse (.jsonOf (.obj es)), [.swaggerGet]) := by
    simp [SwaggerTool.execute, pathGiven]
  refine ⟨?_, ?_, ?_⟩
  · intro pv v hpv h2 hv htv
    have hg : (JVal.obj es).getProp "paths" = some pv := hpv
    have hfilter : swaggerFilter (.obj es) ("/" ++ entity) =
        (JVal.obj es).setProp "paths" (.obj [("/" ++ entity, v)]) := by
      simp [swaggerFilter, hg, h2, hv, htv]
    have hdp : ((JVal.obj es).setProp "paths"
        (.obj [("/" ++ entity, v)])).getProp "paths" = some (.obj [("/" ++ entity, v)]) := by
      simp [JVal.setProp, JVal.getProp, lookupJ_setPropJ, hpv]
    simp [getSwaggerInfo, SwaggerTool.execute, pathGiven, hslash, hfilter, hexec2,
          textResponse, parsePayload, directPathsNonempty, hdp, JVal.truthy, jsKeysLength]
  · intro pv hpv h2 hmiss hkl
    have hg : (JVal.obj es).getProp "paths" = some pv := hpv
    have hfilter : swaggerFilter (.obj es) ("/" ++ entity) = .obj es := by
      cases hv : pv.getProp ("/" ++ entity) with
      | none => simp [swaggerFilter, hg, h2, hv]
      | some w =>
        rw [hv] at hmiss
        simp only [truthyOpt] at hmiss
        simp [swaggerFilter, hg, h2, hv, hmiss]
    have hdp : directPathsNonempty (.obj es) = true := by
      simp [directPathsNonempty, hg, h2, hkl]
    simp [getSwaggerInfo, SwaggerTool.execute, pathGiven, hslash, hfilter, hexec2,
          textResponse, parsePayload, hdp]
  · intro hC
    have hexec1 : SwaggerTool.execute true (.ok (.obj es)) (some ("/" ++ entity)) =
        (textResponse (.jsonOf (swaggerFilter (.obj es) ("/" ++ entity))), [.swaggerGet]) := by
      simp [SwaggerTool.execute, pathGiven, hslash]
    simp [getSwaggerInfo, hexec1, hexec2, textResponse, parsePayload, hC, JVal.getProp,
          apply_ite Prod.fst]

/-- C1 witness: the exact-match scenario with paths `/orders` and `/invoices`
returns the document restricted to `/orders`. -/
theorem c1_witness :
    (getSwaggerInfo true
        (.ok (.obj [("paths", .obj [("/orders", .obj [("get", .obj [])]),
                                    ("/invoices", .obj [("get", .obj [])])])]))
        "orders").1 =
      (JVal.obj [("paths", .obj [("/orders", .obj [("get", .obj [])]),
                                 ("/invoices", .obj [("get", .obj [])])])]).setProp
        "paths" (.obj [("/orders", .obj [("get", .obj [])])]) :=
  (c1_two_pass
      [("paths", .obj [("/orders", .obj [("get", .obj [])]),
                       ("/invoices", .obj [("get", .obj [])])])] "orders").1
    (.obj [("/orders", .obj [("get", .obj [])]), ("/invoices", .obj [("get", .obj [])])])
    (.obj [("get", .obj [])])
    (by simp [lookupJ]) rfl (by simp [JVal.getProp, lookupJ]) rfl

/-! ## Claim C5 -/

/-- C5 counterexample: two query calls whose query string does not parse as
JSON but which do not return the invalid-format error result.  With no
connection string configured, the call returns the connection error (a
store-level failure surfaced as the payload) because the client is acquired
before the filter is parsed; with a connected store and an empty query string,
the falsy-argument check returns "Query is required." before parsing. -/
theorem c5_counterexample :
    (MongoDBTool.execute ⟨false, .ok (), [], fun _ _ => true, fun _ => 0⟩
        ⟨.query, some "users", some (.raw "\x7bbad"), 10⟩).1.getProp "message" =
      some (.str "MongoDB operation failed: Error: MongoDB connection string not found in environment variables. Please set MONGODB_URI or MONGODB_CONNECTION_STRING") ∧
    (MongoDBTool.execute ⟨false, .ok (), [], fun _ _ => true, fun _ => 0⟩
        ⟨.query, some "users", some (.raw "\x7bbad"), 10⟩).2 = [] ∧
    (MongoDBTool.execute ⟨true, .ok (), [("users", [])], fun _ _ => true, fun _ => 0⟩
        ⟨.query, some "users", some (.raw ""), 10⟩).1.getProp "message" =
      some (.str "Query is required.") ∧
    ("MongoDB operation failed: Error: MongoDB connection string not found in environment variables. Please set MONGODB_URI or MONGODB_CONNECTION_STRING"
      ≠ "Invalid query format: SyntaxError: \x7bbad") ∧
    ("Query is required." ≠ "Invalid query format: SyntaxError: ") := by
  refine ⟨rfl, rfl, rfl, by decide, by decide⟩

/-- C5 amended: provided the store connection is established and a non-empty
collection name and non-empty query string are supplied, a query string that
does not parse as JSON makes the tool return the invalid-format error payload
directly, with no store data operation issued and no exception escaping. -/
theorem c5_invalid_query (env : MongoEnv) (c : String) (s e : String) (lim : Nat)
    (hconn : env.connString = true) (hok : env.connect = .ok ())
    (hc : c ≠ "") (hs : s ≠ "")
    (hparse : parsePayload (.raw s) = .error e) :
    MongoDBTool.execute env ⟨.query, some c, some (.raw s), lim⟩ =
      (errObj ("Invalid query format: " ++ e), []) := by
  have he : e = "SyntaxError: " ++ s := by
    simp [parsePayload] at hparse
    exact hparse.symm
  subst he
  simp [MongoDBTool.execute, getClient, hconn, hok, hc, hs, parsePayload]

/-- C5 amended witness: a connected store and the malformed filter "notjson". -/
theorem c5_witness :
    MongoDBTool.execute ⟨true, .ok (), [("users", [])], fun _ _ => true, fun _ => 0⟩
        ⟨.query, some "users", some (.raw "notjson"), 10⟩ =
      (errObj ("Invalid query format: " ++ "SyntaxError: notjson"), []) :=
  c5_invalid_query ⟨true, .ok (), [("users", [])], fun _ _ => true, fun _ => 0⟩
    "users" "notjson" "SyntaxError: notjson" 10 rfl rfl (by decide) (by decide) rfl

/-! ## Claim C3 -/

theorem mem_tokenizeAux_ne_empty :
    ∀ (cs cur : List Char) (s : String), s ∈ tokenizeAux cur cs → s ≠ "" := by
  intro cs
  induction cs with
  | nil =>
    intro cur s hs
    simp only [tokenizeAux] at hs
    by_cases hc : cur.isEmpty
    · simp [hc] at hs
    · simp [hc] at hs
      subst hs
      intro he
      have : cur.reverse = [] := by
        have := congrArg String.data he
        simpa using this
      rw [List.reverse_eq_nil_iff] at this
      subst this
      simp at hc
  | cons c cs ih =>
    intro cur s hs
    simp only [tokenizeAux] at hs
    by_cases hw : isWordChar c
    · rw [if_pos hw] at hs
      exact ih _ s hs
    · rw [if_neg hw] at hs
      by_cases hc : cur.isEmpty
      · rw [if_pos hc] at hs
        exact ih _ s hs
      · rw [if_neg hc] at hs
        rcases List.mem_cons.mp hs with he | ht
        · subst he
          intro he2
          have : cur.reverse = [] := by
            have := congrArg String.data he2
            simpa using this
          rw [List.reverse_eq_nil_iff] at this
          subst this
          simp at hc
        · exact ih _ s ht

theorem resolve_entity_ne_empty (q e : String) (h : resolveEntityName q = some e) :
    e ≠ "" := by
  unfold resolveEntityName at h
  cases hl : (wordTokens (lowerS q)).filter (fun w => !commonWords.contains w) with
  | nil => rw [hl] at h; cases h
  | cons a t =>
    rw [hl] at h
    have ha : a = e := by
      simpa [List.head?] using h
    subst ha
    have hmem : a ∈ (wordTokens (lowerS q)).filter (fun w => !commonWords.contains w) := by
      rw [hl]; exact List.mem_cons_self a t
    have htok : a ∈ wordTokens (lowerS q) := (List.mem_filter.mp hmem).1
    exact mem_tokenizeAux_ne_empty _ [] a htok

/-- C3 counterexample: with all three sources configured and a store that has
no "users" collection, the mongodb slot of the aggregation does not degrade to
an inline message: it carries a normal payload (an empty-schema descriptor plus
an empty sample list) with no message field, although the claim lists a
missing collection among the failures converted to inline messages. -/
theorem c3_counterexample :
    slotNamed "mongodb" (DataExplorerTool.execute
        ⟨true, true, .ok (.obj [("tables", .arr [])]), .ok (.obj []),
         ⟨true, .ok (), [], fun _ _ => true, fun _ => 0⟩⟩
        "users structure" 10) =
      some (.obj [("schema", .obj [("name", .str "users"), ("fields", .arr [])]),
                  ("samples", .obj [("data", .arr [])])]) ∧
    (JVal.obj [("schema", .obj [("name", .str "users"), ("fields", .arr [])]),
               ("samples", .obj [("data", .arr [])])]).getProp "message" = none ∧
    findCollection [] "users" = [] := by
  refine ⟨rfl, rfl, rfl⟩

/-- C3 amended: once the entity name resolves, the aggregation always returns
a normal single-text response with all three source slots; a network failure
of the ERD or Swagger fetch, or a store connection failure, degrades only that
source's slot to an inline message; and each source's slot depends only on
that source's configuration and outcome, so one source's failure can neither
abort nor alter the other sources' retrieval.  (A missing collection, however,
yields a normal empty-schema payload, not a message.) -/
theorem c3_partial_failure (env : ExploreEnv) (q entity : String) (lim : Nat)
    (h : resolveEntityName q = some entity) :
    ((respValue (DataExplorerTool.execute env q lim).1).isSome = true ∧
     sourceKeysOf (DataExplorerTool.execute env q lim) = some ["erd", "swagger", "mongodb"]) ∧
    (∀ m, env.erdConfigured = true → env.erdFetch = .error m →
      slotNamed "erd" (DataExplorerTool.execute env q lim) =
        some (msgObj ("Failed to parse ERD data: " ++
          ("SyntaxError: " ++ ("Failed to retrieve ERD information: " ++ m))))) ∧
    (∀ m, env.swaggerConfigured = true → env.swaggerFetch = .error m →
      slotNamed "swagger" (DataExplorerTool.execute env q lim) =
        some (msgObj ("Failed to parse Swagger data: " ++
          ("SyntaxError: " ++ ("Failed to retrieve Swagger information: " ++ m))))) ∧
    (∀ em, env.mongo.connString = true → env.mongo.connect = .error em →
      slotNamed "mongodb" (DataExplorerTool.execute env q lim) =
        some (msgObj ("No MongoDB collection found with name \x27" ++ entity ++ "\x27"))) ∧
    (∀ env' : ExploreEnv, env'.erdConfigured = env.erdConfigured →
      env'.erdFetch = env.erdFetch →
      slotNamed "erd" (DataExplorerTool.execute env' q lim) =
        slotNamed "erd" (DataExplorerTool.execute env q lim)) ∧
    (∀ env' : ExploreEnv, env'.swaggerConfigured = env.swaggerConfigured →
      env'.swaggerFetch = env.swaggerFetch →
      slotNamed "swagger" (DataExplorerTool.execute env' q lim) =
        slotNamed "swagger" (DataExplorerTool.execute env q lim)) ∧
    (∀ env' : ExploreEnv, env'.mongo = env.mongo →
      slotNamed "mongodb" (DataExplorerTool.execute env' q lim) =
        slotNamed "mongodb" (DataExplorerTool.execute env q lim)) := by
  refine ⟨⟨?_, ?_⟩, ?_, ?_, ?_, ?_, ?_, ?_⟩
  · simp [DataExplorerTool.execute, h, respValue, textResponse]
  · simp [DataExplorerTool.execute, h, sourceKeysOf, sourcesOf, respValue, textResponse,
          JVal.getProp, lookupJ]
  · intro m hc hf
    simp [DataExplorerTool.execute, h, hc, hf, slotNamed, sourcesOf, respValue,
          textResponse, JVal.getProp, lookupJ, sourceSlot, getERDInfo, ERDTool.execute,
          parsePayload]
  · intro m hc hf
    simp [DataExplorerTool.execute, h, hc, hf, slotNamed, sourcesOf, respValue,
          textResponse, JVal.getProp, lookupJ, sourceSlot, getSwaggerInfo,
          SwaggerTool.execute, parsePayload]
  · intro em hc hf
    simp [DataExplorerTool.execute, h, hc, hf, slotNamed, sourcesOf, respValue,
          textResponse, JVal.getProp, lookupJ, sourceSlot, getMongoDBInfo,
          MongoDBToolW.execute, MongoDBTool.execute, getClient, parsePayload,
          errObj, msgObj, JVal.truthy, truthyOpt]
  · intro env' h1 h2
    simp [DataExplorerTool.execute, h, slotNamed, sourcesOf, respValue, textResponse,
          JVal.getProp, lookupJ, h1, h2]
  · intro env' h1 h2
    simp [DataExplorerTool.execute, h, slotNamed, sourcesOf, respValue, textResponse,
          JVal.getProp, lookupJ, h1, h2]
  · intro env' h1
    simp [DataExplorerTool.execute, h, slotNamed, sourcesOf, respValue, textResponse,
          JVal.getProp, lookupJ, h1]

/-- C3 amended witness: a failing ERD fetch and a failing store connection
degrade exactly their own slots to inline messages. -/
theorem c3_witness :
    slotNamed "erd" (DataExplorerTool.execute
        ⟨true, true, .error "timeout", .ok (.obj []),
         ⟨true, .error "refused", [], fun _ _ => true, fun _ => 0⟩⟩ "users info" 10) =
      some (msgObj ("Failed to parse ERD data: " ++
        ("SyntaxError: " ++ ("Failed to retrieve ERD information: " ++ "timeout")))) ∧
    slotNamed "mongodb" (DataExplorerTool.execute
        ⟨true, true, .error "timeout", .ok (.obj []),
         ⟨true, .error "refused", [], fun _ _ => true, fun _ => 0⟩⟩ "users info" 10) =
      some (msgObj ("No MongoDB collection found with name \x27" ++ "users" ++ "\x27")) :=
  ⟨(c3_partial_failure
      ⟨true, true, .error "timeout", .ok (.obj []),
       ⟨true, .error "refused", [], fun _ _ => true, fun _ => 0⟩⟩
      "users info" "users" 10 rfl).2.1 "timeout" rfl rfl,
   (c3_partial_failure
      ⟨true, true, .error "timeout", .ok (.obj []),
       ⟨true, .error "refused", [], fun _ _ => true, fun _ => 0⟩⟩
      "users info" "users" 10 rfl).2.2.2.1 "refused" rfl rfl⟩

/-! ## Claim C9 -/

theorem getERDInfo_trace (cfg : Bool) (fetch : Except String JVal) (e : String) :
    (getERDInfo cfg fetch e).2 = (ERDTool.execute cfg fetch).2 := by
  unfold getERDInfo
  dsimp only
  repeat' split <;> try rfl

theorem getSwaggerInfo_trace (cfg : Bool) (fetch : Except String JVal) (e : String) :
    (getSwaggerInfo cfg fetch e).2 = (SwaggerTool.execute cfg fetch (some ("/" ++ e))).2 ∨
    (getSwaggerInfo cfg fetch e).2 =
      (SwaggerTool.execute cfg fetch (some ("/" ++ e))).2 ++
      (SwaggerTool.execute cfg fetch none).2 := by
  unfold getSwaggerInfo
  dsimp only
  repeat' split
  all_goals try exact .inl rfl
  all_goals try exact .inr rfl

theorem erd_ops_erdGet (cfg : Bool) (fetch : Except String JVal) :
    ∀ c ∈ (ERDTool.execute cfg fetch).2, c = CallOp.erdGet := by
  unfold ERDTool.execute
  repeat' split
  all_goals simp

theorem swagger_ops_swaggerGet (cfg : Bool) (fetch : Except String JVal)
    (p? : Option String) :
    ∀ c ∈ (SwaggerTool.execute cfg fetch p?).2, c = CallOp.swaggerGet := by
  unfold SwaggerTool.execute
  repeat' split
  all_goals simp

theorem storeOpsOf_eq_nil (t : List CallOp)
    (h : ∀ c ∈ t, c = CallOp.erdGet ∨ c = CallOp.swaggerGet) : storeOpsOf t = [] := by
  induction t with
  | nil => rfl
  | cons c t ih =>
    have hc := h c (List.mem_cons_self c t)
    have ht := ih (fun d hd => h d (List.mem_cons_of_mem c hd))
    rcases hc with hc | hc <;> subst hc <;> simpa [storeOpsOf] using ht

theorem storeOps_erd_part (cfg : Bool) (fetch : Except String JVal) (e : String) :
    storeOpsOf (optTrace (if cfg then some (getERDInfo cfg fetch e) else none)) = [] := by
  cases cfg with
  | false => rfl
  | true =>
    refine storeOpsOf_eq_nil _ (fun c hc => ?_)
    simp only [if_true, optTrace] at hc
    rw [getERDInfo_trace] at hc
    exact .inl (erd_ops_erdGet true fetch c hc)

theorem storeOps_swagger_part (cfg : Bool) (fetch : Except String JVal) (e : String) :
    storeOpsOf (optTrace (if cfg then some (getSwaggerInfo cfg fetch e) else none)) = [] := by
  cases cfg with
  | false => rfl
  | true =>
    refine storeOpsOf_eq_nil _ (fun c hc => ?_)
    simp only [if_true, optTrace] at hc
    rcases getSwaggerInfo_trace true fetch e with ht | ht <;> rw [ht] at hc
    · exact .inr (swagger_ops_swaggerGet true fetch _ c hc)
    · rcases List.mem_append.mp hc with hh | hh
      · exact .inr (swagger_ops_swaggerGet true fetch _ c hh)
      · exact .inr (swagger_ops_swaggerGet true fetch _ c hh)

/-- C9 counterexample: the store has no "users" collection, yet the mongodb
slot of the aggregation is not a not-found message: it is the empty-schema
payload with an empty sample list (and no message field), because
describeCollection reports `{name, fields: []}` for a non-existent collection
and the aggregator's name check therefore passes. -/
theorem c9_counterexample :
    slotNamed "mongodb" (DataExplorerTool.execute
        ⟨false, false, .ok .null, .ok .null,
         ⟨true, .ok (), [("orders", [[("id", JVal.num 1)]])], fun _ _ => true, fun _ => 0⟩⟩
        "users info" 10) =
      some (.obj [("schema", .obj [("name", .str "users"), ("fields", .arr [])]),
                  ("samples", .obj [("data", .arr [])])]) ∧
    (JVal.obj [("schema", .obj [("name", .str "users"), ("fields", .arr [])]),
               ("samples", .obj [("data", .arr [])])]).getProp "message" = none ∧
    findCollection [("orders", [[("id", JVal.num 1)]])] "users" = [] := by
  refine ⟨rfl, rfl, rfl⟩

/-- C9 amended: with the store configured and connected, the aggregator uses
the resolved entity name directly as the collection name (every store
operation of the whole call addresses exactly that collection), requests
exactly 2 sample documents from the same collection, and treats a missing
collection as a normal empty-schema result rather than a failure, the whole
call still succeeding with a normal JSON response. -/
theorem c9_mongo_narrowing (env : ExploreEnv) (q entity : String) (lim : Nat)
    (h : resolveEntityName q = some entity)
    (hconn : env.mongo.connString = true) (hok : env.mongo.connect = .ok ()) :
    (∀ op ∈ storeOpsOf (DataExplorerTool.execute env q lim).2, op.collection = some entity) ∧
    (StoreOp.sample entity 2 ∈ storeOpsOf (DataExplorerTool.execute env q lim).2) ∧
    (findCollection env.mongo.store entity = [] →
      slotNamed "mongodb" (DataExplorerTool.execute env q lim) =
        some (.obj [("schema", .obj [("name", .str entity), ("fields", .arr [])]),
                    ("samples", .obj [("data", .arr [])])]) ∧
      (respValue (DataExplorerTool.execute env q lim).1).isSome = true) := by
  have hne : entity ≠ "" := resolve_entity_ne_empty q entity h
  have hnb : (entity == "") = false := by
    simp [hne]
  have hmops : storeOpsOf (DataExplorerTool.execute env q lim).2 =
      storeOpsOf (getMongoDBInfo env.mongo entity (if lim = 0 then 10 else lim)).2 := by
    simp only [DataExplorerTool.execute, h]
    simp only [storeOpsOf, List.filterMap_append]
    rw [← storeOpsOf, ← storeOpsOf, ← storeOpsOf,
        storeOps_erd_part env.erdConfigured env.erdFetch entity,
        storeOps_swagger_part env.swaggerConfigured env.swaggerFetch entity]
    simp [optTrace, hconn]
    rfl
  refine ⟨?_, ?_, ?_⟩
  · intro op hop
    rw [hmops] at hop
    by_cases hfc : findCollection env.mongo.store entity = []
    · have hmt : (getMongoDBInfo env.mongo entity (if lim = 0 then 10 else lim)).2 =
          [CallOp.mongoOp (StoreOp.find entity 100),
           CallOp.mongoOp (StoreOp.sample entity 2)] := by
        simp [getMongoDBInfo, MongoDBToolW.execute, MongoDBTool.execute, getClient,
              hconn, hok, hne, hnb, describeCollection, hfc, descriptorToJson,
              getSampleData, textResponse, parsePayload, JVal.getProp, lookupJ,
              JVal.truthy, truthyOpt]
      rw [hmt] at hop
      simp [storeOpsOf] at hop
      rcases hop with h5 | h5 <;> simp [h5, StoreOp.collection]
    · have hmt : (getMongoDBInfo env.mongo entity (if lim = 0 then 10 else lim)).2 =
          [CallOp.mongoOp (StoreOp.find entity 100),
           CallOp.mongoOp (StoreOp.countDocs entity),
           CallOp.mongoOp (StoreOp.sample entity 2)] := by
        simp [getMongoDBInfo, MongoDBToolW.execute, MongoDBTool.execute, getClient,
              hconn, hok, hne, hnb, describeCollection, hfc, descriptorToJson,
              getSampleData, textResponse, parsePayload, JVal.getProp, lookupJ,
              JVal.truthy, truthyOpt]
      rw [hmt] at hop
      simp [storeOpsOf] at hop
      rcases hop with h5 | h5 | h5 <;> simp [h5, StoreOp.collection]
  · rw [hmops]
    by_cases hfc : findCollection env.mongo.store entity = []
    · have hmt : (getMongoDBInfo env.mongo entity (if lim = 0 then 10 else lim)).2 =
          [CallOp.mongoOp (StoreOp.find entity 100),
           CallOp.mongoOp (StoreOp.sample entity 2)] := by
        simp [getMongoDBInfo, MongoDBToolW.execute, MongoDBTool.execute, getClient,
              hconn, hok, hne, hnb, describeCollection, hfc, descriptorToJson,
              getSampleData, textResponse, parsePayload, JVal.getProp, lookupJ,
              JVal.truthy, truthyOpt]
      rw [hmt]
      simp [storeOpsOf]
    · have hmt : (getMongoDBInfo env.mongo entity (if lim = 0 then 10 else lim)).2 =
          [CallOp.mongoOp (StoreOp.find entity 100),
           CallOp.mongoOp (StoreOp.countDocs entity),
           CallOp.mongoOp (StoreOp.sample entity 2)] := by
        simp [getMongoDBInfo, MongoDBToolW.execute, MongoDBTool.execute, getClient,
              hconn, hok, hne, hnb, describeCollection, hfc, descriptorToJson,
              getSampleData, textResponse, parsePayload, JVal.getProp, lookupJ,
              JVal.truthy, truthyOpt]
      rw [hmt]
      simp [storeOpsOf]
  · intro hfc
    constructor
    · simp [DataExplorerTool.execute, h, hconn, slotNamed, sourcesOf, respValue,
            textResponse, JVal.getProp, lookupJ, sourceSlot, getMongoDBInfo,
            MongoDBToolW.execute, MongoDBTool.execute, getClient, hok, hne, hnb,
            describeCollection, hfc, descriptorToJson, getSampleData, parsePayload,
            JVal.truthy, truthyOpt]
    · simp [DataExplorerTool.execute, h, respValue, textResponse]

/-- C9 amended witness: empty store, query resolving to "users": a sample
request of size 2 for collection "users" is issued and the slot carries the
empty-schema payload. -/
theorem c9_witness :
    StoreOp.sample "users" 2 ∈ storeOpsOf (DataExplorerTool.execute
        ⟨false, false, .ok .null, .ok .null,
         ⟨true, .ok (), [], fun _ _ => true, fun _ => 0⟩⟩ "users info" 10).2 ∧
    slotNamed "mongodb" (DataExplorerTool.execute
        ⟨false, false, .ok .null, .ok .null,
         ⟨true, .ok (), [], fun _ _ => true, fun _ => 0⟩⟩ "users info" 10) =
      some (.obj [("schema", .obj [("name", .str "users"), ("fields", .arr [])]),
                  ("samples", .obj [("data", .arr [])])]) :=
  ⟨(c9_mongo_narrowing
      ⟨false, false, .ok .null, .ok .null, ⟨true, .ok (), [], fun _ _ => true, fun _ => 0⟩⟩
      "users info" "users" 10 rfl rfl rfl).2.1,
   ((c9_mongo_narrowing
      ⟨false, false, .ok .null, .ok .null, ⟨true, .ok (), [], fun _ _ => true, fun _ => 0⟩⟩
      "users info" "users" 10 rfl rfl rfl).2.2 rfl).1⟩
